import Mathlib

/-!
Shallow embedding of the AMM quoting and risk-analytics core of the
`defi1-risk` dashboard.  The embedded code comes from `src/lib/web3.ts`
(`executeSwap`, `analyzeLPPosition`) and from the dashboard page component
(`getSwapOutput`, `getPriceImpactPercent`, `getImpermanentLossPercent`).
JavaScript double arithmetic on the display paths is modelled exactly over ℚ
(ℝ where `Math.sqrt` appears); BigInt arithmetic on the execution path is
modelled over ℕ/ℤ with explicit truncating division.
-/

/-- Fee numerator: `FEE_NUM = 997` in both sources (0.3% fee). -/
def FEE_NUM : ℕ := 997

/-- Fee denominator: `FEE_DEN = 1000`. -/
def FEE_DEN : ℕ := 1000

/-- `amountInWithFee = (amountInUnits * FEE_NUM) / FEE_DEN` from `executeSwap`;
both BigInt operands are non-negative, so `Nat` division is the BigInt
truncating division. -/
def amountInWithFee (amountIn : ℕ) : ℕ := amountIn * FEE_NUM / FEE_DEN

/-- The integer execution-path quote of `executeSwap`:
`amountOut = (amountInWithFee * reserveOut) / (reserveIn + amountInWithFee)`. -/
def execQuote (reserveIn reserveOut amountIn : ℕ) : ℕ :=
  amountInWithFee amountIn * reserveOut / (reserveIn + amountInWithFee amountIn)

/-- `getSwapOutput` — the display-path quote of the dashboard component. -/
def getSwapOutput (reserveIn reserveOut amountIn : ℚ) : ℚ :=
  if amountIn ≤ 0 ∨ reserveIn ≤ 0 ∨ reserveOut ≤ 0 then 0
  else
    amountIn * (FEE_NUM : ℚ) / (FEE_DEN : ℚ) * reserveOut /
      (reserveIn + amountIn * (FEE_NUM : ℚ) / (FEE_DEN : ℚ))

/-- `getPriceImpactPercent` — relative gap between execution price and spot
price, as a percentage. -/
def getPriceImpactPercent (reserveIn reserveOut amountIn : ℚ) : ℚ :=
  if amountIn ≤ 0 ∨ reserveIn ≤ 0 ∨ reserveOut ≤ 0 then 0
  else
    (getSwapOutput reserveIn reserveOut amountIn / amountIn -
        reserveOut / reserveIn) / (reserveOut / reserveIn) * 100

/-- `getImpermanentLossPercent` — closed-form IL of an x·y=k position for a
relative price move of `priceChangePct` percent. -/
noncomputable def getImpermanentLossPercent (priceChangePct : ℝ) : ℝ :=
  if 1 + priceChangePct / 100 ≤ 0 then 0
  else
    (Real.sqrt (1 + priceChangePct / 100) / ((1 + priceChangePct / 100 + 1) / 2) - 1) * 100

/-- Result record of `analyzeLPPosition`. -/
structure LPAnalysis where
  lpBalance : ℚ
  poolSharePct : ℚ
  underlying0 : ℚ
  underlying1 : ℚ
deriving DecidableEq

/-- Pure core of `analyzeLPPosition` once the on-chain reads are decoded to
numbers: degenerate all-zero result when the balance or the supply is zero,
otherwise proportional share of both reserves. -/
def analyzeLPPosition (lpBalance totalSupply reserve0 reserve1 : ℚ) : LPAnalysis :=
  if lpBalance = 0 ∨ totalSupply = 0 then ⟨0, 0, 0, 0⟩
  else
    ⟨lpBalance, lpBalance / totalSupply * 100,
      reserve0 * (lpBalance / totalSupply), reserve1 * (lpBalance / totalSupply)⟩

/-- Swap direction, `"0to1" | "1to0"` in the source. -/
inductive SwapDirection
  | zeroToOne
  | oneToZero
deriving DecidableEq

/-- The error exits of `executeSwap`: "Amount must be a positive number",
"Pool has no liquidity", "Amount out is zero". -/
inductive SwapError
  | invalidAmount
  | noLiquidity
  | zeroOutput
deriving DecidableEq

/-- The instruction `executeSwap` hands to the external ledger on success:
whether an approval was needed first, the integral input amount, the
minimum-output bound, and which swap function is called. -/
structure SwapPlan where
  approvalNeeded : Bool
  amountInUnits : ℕ
  minOut : ℤ
  direction : SwapDirection
deriving DecidableEq

/-- JavaScript `Math.round` on a finite value: round half toward +∞. -/
def jsRound (x : ℚ) : ℤ := ⌊x + 1 / 2⌋

/-- `slippageBps = Math.round(maxSlippagePct * 100)`. -/
def slippageBps (maxSlippagePct : ℚ) : ℤ := jsRound (maxSlippagePct * 100)

/-- `minOut = (amountOut * BigInt(10000 - slippageBps)) / 10000n`; BigInt
division truncates toward zero, i.e. `Int.tdiv`. -/
def minOutOf (amountOut : ℕ) (maxSlippagePct : ℚ) : ℤ :=
  Int.tdiv ((amountOut : ℤ) * (10000 - slippageBps maxSlippagePct)) 10000

/-- Which reserve is the input side for a given direction. -/
def reserveInOf (direction : SwapDirection) (r0 r1 : ℕ) : ℕ :=
  if direction = SwapDirection.zeroToOne then r0 else r1

/-- Which reserve is the output side for a given direction. -/
def reserveOutOf (direction : SwapDirection) (r0 r1 : ℕ) : ℕ :=
  if direction = SwapDirection.zeroToOne then r1 else r0

/-- Pure decision core of `executeSwap`: validates the amount, floors a
non-integral amount, fails on an empty pool, quotes, fails on a zero quote,
and otherwise emits the swap instruction together with the derived
minimum-output bound.  The external reads (reserves `r0`,`r1` and the current
`allowance`) are passed in as arguments. -/
def executeSwapCore (direction : SwapDirection) (amountIn maxSlippagePct : ℚ)
    (r0 r1 allowance : ℕ) : Except SwapError SwapPlan :=
  if amountIn ≤ 0 then .error .invalidAmount
  else
    let amountInUnits : ℕ := (⌊amountIn⌋).toNat
    if reserveInOf direction r0 r1 = 0 ∨ reserveOutOf direction r0 r1 = 0 then
      .error .noLiquidity
    else
      let amountOut := execQuote (reserveInOf direction r0 r1) (reserveOutOf direction r0 r1) amountInUnits
      if amountOut = 0 then .error .zeroOutput
      else
        .ok ⟨decide (allowance < amountInUnits), amountInUnits,
          minOutOf amountOut maxSlippagePct, direction⟩

/-! ### Helper lemmas shared across the development -/

/-- The fee-adjusted amount, cast to ℚ, is at most the exact fee fraction. -/
lemma amountInWithFee_cast_le (a : ℕ) :
    (amountInWithFee a : ℚ) ≤ (a : ℚ) * 997 / 1000 := by
  have h := Nat.cast_div_le (m := a * 997) (n := 1000) (α := ℚ)
  unfold amountInWithFee FEE_NUM FEE_DEN
  push_cast at h ⊢
  linarith

/-- The fee strictly reduces a positive input amount. -/
lemma amountInWithFee_lt (a : ℕ) (ha : 0 < a) : amountInWithFee a < a := by
  unfold amountInWithFee FEE_NUM FEE_DEN
  rw [Nat.div_lt_iff_lt_mul (by norm_num)]
  omega

/-- The integer quote is the floor of the exact rational quotient. -/
lemma execQuote_eq_floor (r s a : ℕ) :
    execQuote r s a =
      ⌊((amountInWithFee a * s : ℕ) : ℚ) / ((r + amountInWithFee a : ℕ) : ℚ)⌋₊ := by
  rw [Nat.floor_div_nat, Nat.floor_natCast]
  rfl

/-- The integer quote, cast to ℚ, is at most the exact rational quotient. -/
lemma execQuote_cast_le (r s a : ℕ) :
    (execQuote r s a : ℚ) ≤
      (amountInWithFee a : ℚ) * s / ((r : ℚ) + (amountInWithFee a : ℚ)) := by
  have h := Nat.cast_div_le (m := amountInWithFee a * s) (n := r + amountInWithFee a) (α := ℚ)
  push_cast at h
  exact h

/-- The constant-product curve output `x ↦ x·s/(r+x)` is monotone. -/
lemma curve_mono {r s x y : ℚ} (hr : 0 < r) (hs : 0 ≤ s) (hx : 0 ≤ x) (hxy : x ≤ y) :
    x * s / (r + x) ≤ y * s / (r + y) := by
  rw [div_le_div_iff₀ (by linarith) (by linarith)]
  nlinarith [mul_le_mul_of_nonneg_right (mul_le_mul_of_nonneg_right hxy hs) hr.le]

/-- The curve output at a fee-reduced point is strictly below the spot-price
line `a·s/r`. -/
lemma curve_lt_linear {r s x a : ℚ} (hr : 0 < r) (hs : 0 < s) (hx : 0 ≤ x) (hxa : x < a) :
    x * s / (r + x) < a * s / r := by
  have h1 : x * s / (r + x) ≤ x * s / r :=
    div_le_div_of_nonneg_left (by positivity) hr (by linarith)
  have h2 : x * s / r < a * s / r :=
    div_lt_div_of_pos_right (by nlinarith) hr
  linarith

/-- On positive inputs `getSwapOutput` takes its else-branch value. -/
lemma getSwapOutput_pos_eq {r s a : ℚ} (hr : 0 < r) (hs : 0 < s) (ha : 0 < a) :
    getSwapOutput r s a = a * 997 / 1000 * s / (r + a * 997 / 1000) := by
  unfold getSwapOutput
  rw [if_neg (by push_neg; exact ⟨ha, hr, hs⟩)]
  norm_num [FEE_NUM, FEE_DEN]

/-- The display quote is never negative. -/
lemma getSwapOutput_nonneg (r s a : ℚ) : 0 ≤ getSwapOutput r s a := by
  unfold getSwapOutput
  split
  · exact le_refl 0
  · rename_i h
    push_neg at h
    obtain ⟨ha, hr, hs⟩ := h
    positivity

/-- The display quote is strictly below the spot-price line. -/
lemma getSwapOutput_lt_linear {r s a : ℚ} (hr : 0 < r) (hs : 0 < s) (ha : 0 < a) :
    getSwapOutput r s a < a * s / r := by
  rw [getSwapOutput_pos_eq hr hs ha]
  exact curve_lt_linear hr hs (by positivity) (by linarith)

/-- The display quote is monotone in the input amount. -/
lemma getSwapOutput_mono {r s : ℚ} (hr : 0 < r) (hs : 0 < s) {a a' : ℚ} (h : a ≤ a') :
    getSwapOutput r s a ≤ getSwapOutput r s a' := by
  rcases le_or_lt a 0 with ha | ha
  · have : getSwapOutput r s a = 0 := by
      unfold getSwapOutput
      rw [if_pos (Or.inl ha)]
    rw [this]
    exact getSwapOutput_nonneg r s a'
  · have ha' : 0 < a' := lt_of_lt_of_le ha h
    rw [getSwapOutput_pos_eq hr hs ha, getSwapOutput_pos_eq hr hs ha']
    exact curve_mono hr hs.le (by positivity) (by linarith)

/-- Integer-quote monotonicity in the input amount. -/
lemma execQuote_mono (r s : ℕ) (hr : 0 < r) {a a' : ℕ} (h : a ≤ a') :
    execQuote r s a ≤ execQuote r s a' := by
  rw [execQuote_eq_floor r s a, execQuote_eq_floor r s a']
  apply Nat.floor_mono
  push_cast
  apply curve_mono (by exact_mod_cast hr) (by positivity) (by positivity)
  exact_mod_cast Nat.div_le_div_right (Nat.mul_le_mul_right _ h)

/-- The integer quote is strictly below the spot-price line. -/
lemma execQuote_lt_linear {r s a : ℕ} (hr : 0 < r) (hs : 0 < s) (ha : 0 < a) :
    (execQuote r s a : ℚ) < (a : ℚ) * s / r := by
  have h1 := execQuote_cast_le r s a
  have h2 : (amountInWithFee a : ℚ) < (a : ℚ) := by
    exact_mod_cast amountInWithFee_lt a ha
  have h3 : ((amountInWithFee a : ℚ)) * s / ((r : ℚ) + (amountInWithFee a : ℚ)) <
      (a : ℚ) * s / r := by
    apply curve_lt_linear (by exact_mod_cast hr) (by exact_mod_cast hs) (by positivity) h2
  linarith

/-! ### Claims -/

/-- C1: the execution-path quote is the two-step floored integer algorithm —
`amountInWithFee = ⌊amountIn·997/1000⌋` and
`amountOut = ⌊amountInWithFee·reserveOut/(reserveIn+amountInWithFee)⌋` — and
`execQuote 101131 99493 100 = 97` exactly. -/
theorem C1_exec_quote_two_step_floor :
    (∀ aIn : ℕ, amountInWithFee aIn = ⌊((aIn : ℚ) * 997 / 1000)⌋₊) ∧
    (∀ rIn rOut aIn : ℕ,
        execQuote rIn rOut aIn =
          ⌊((amountInWithFee aIn : ℚ) * (rOut : ℚ) /
              ((rIn : ℚ) + (amountInWithFee aIn : ℚ)))⌋₊) ∧
    execQuote 101131 99493 100 = 97 := by
  refine ⟨?_, ?_, by decide⟩
  · intro a
    rw [show ((a : ℚ) * 997 / 1000) = ((a * 997 : ℕ) : ℚ) / ((1000 : ℕ) : ℚ) by push_cast; ring]
    rw [Nat.floor_div_nat, Nat.floor_natCast]
    rfl
  · intro r s a
    rw [show ((amountInWithFee a : ℚ) * (s : ℚ) / ((r : ℚ) + (amountInWithFee a : ℚ))) =
        ((amountInWithFee a * s : ℕ) : ℚ) / ((r + amountInWithFee a : ℕ) : ℚ) by push_cast; ring]
    exact execQuote_eq_floor r s a

/-- C9: the LP position analysis returns the all-zero record whenever the LP
balance or the total supply is zero, for any reserves, with no division
performed. -/
theorem C9_lp_degenerate (lpBalance totalSupply reserve0 reserve1 : ℚ)
    (h : lpBalance = 0 ∨ totalSupply = 0) :
    analyzeLPPosition lpBalance totalSupply reserve0 reserve1 = ⟨0, 0, 0, 0⟩ := by
  unfold analyzeLPPosition
  rw [if_pos h]

/-- C9 witness: a zero balance against a live pool yields the all-zero record. -/
theorem C9_lp_degenerate_witness :
    analyzeLPPosition 0 1000 101131 99493 = ⟨0, 0, 0, 0⟩ :=
  C9_lp_degenerate 0 1000 101131 99493 (Or.inl rfl)

/-- C2: conservation of the pool invariant — for positive reserves and a
positive trade, `reserveIn·reserveOut ≤ (reserveIn+amountInWithFee)·(reserveOut−amountOut)`
holds for the integer execution-path quote, and likewise (with the exact,
unfloored fee fraction) for the display-path quote. -/
theorem C2_conservation (rIn rOut aIn : ℕ) (hr : 0 < rIn) (hs : 0 < rOut) (ha : 0 < aIn) :
    rIn * rOut ≤ (rIn + amountInWithFee aIn) * (rOut - execQuote rIn rOut aIn) ∧
    ∀ r s a : ℚ, 0 < r → 0 < s → 0 < a →
      r * s ≤ (r + a * 997 / 1000) * (s - getSwapOutput r s a) := by
  constructor
  · set w := amountInWithFee aIn with hw
    set q := execQuote rIn rOut aIn with hq
    have hqd : q = w * rOut / (rIn + w) := rfl
    have hmul : q * (rIn + w) ≤ w * rOut := by
      rw [hqd]
      exact Nat.div_mul_le_self (w * rOut) (rIn + w)
    have hle : q ≤ rOut := by
      rw [hqd]
      calc w * rOut / (rIn + w) ≤ (rIn + w) * rOut / (rIn + w) :=
            Nat.div_le_div_right (Nat.mul_le_mul_right rOut (Nat.le_add_left w rIn))
        _ = rOut := Nat.mul_div_cancel_left rOut (by omega)
    zify [hle] at *
    nlinarith
  · intro r s a hr' hs' ha'
    rw [getSwapOutput_pos_eq hr' hs' ha']
    have hd : (0 : ℚ) < r + a * 997 / 1000 := by positivity
    have key : (r + a * 997 / 1000) * (s - a * 997 / 1000 * s / (r + a * 997 / 1000)) =
        r * s := by
      field_simp
      ring
    rw [key]

/-- C2 witness: conservation at the demo pool reserves with a 100-unit trade. -/
theorem C2_conservation_witness :
    0 < 101131 ∧ 0 < 99493 ∧ 0 < 100 ∧
    101131 * 99493 ≤ (101131 + amountInWithFee 100) * (99493 - execQuote 101131 99493 100) :=
  ⟨by decide, by decide, by decide,
    (C2_conservation 101131 99493 100 (by decide) (by decide) (by decide)).1⟩

/-- C5: quoting is monotone in the input amount for fixed positive reserves
and strictly below `amountIn·reserveOut/reserveIn`, on both the integer
execution path and the rational display path. -/
theorem C5_quote_monotone_bounded :
    (∀ rIn rOut a a' : ℕ, 0 < rIn → a ≤ a' →
        execQuote rIn rOut a ≤ execQuote rIn rOut a') ∧
    (∀ rIn rOut a : ℕ, 0 < rIn → 0 < rOut → 0 < a →
        (execQuote rIn rOut a : ℚ) < (a : ℚ) * (rOut : ℚ) / (rIn : ℚ)) ∧
    (∀ r s a a' : ℚ, 0 < r → 0 < s → a ≤ a' →
        getSwapOutput r s a ≤ getSwapOutput r s a') ∧
    (∀ r s a : ℚ, 0 < r → 0 < s → 0 < a → getSwapOutput r s a < a * s / r) :=
  ⟨fun _ _ _ _ hr h => execQuote_mono _ _ hr h,
   fun _ _ _ hr hs ha => execQuote_lt_linear hr hs ha,
   fun _ _ _ _ hr hs h => getSwapOutput_mono hr hs h,
   fun _ _ _ hr hs ha => getSwapOutput_lt_linear hr hs ha⟩

/-- C5 witness: the integer quote for a 100-unit trade on the demo reserves is
strictly below the spot-price line. -/
theorem C5_quote_monotone_bounded_witness :
    0 < 101131 ∧ 0 < 99493 ∧ 0 < 100 ∧
    (execQuote 101131 99493 100 : ℚ) <
      ((100 : ℕ) : ℚ) * ((99493 : ℕ) : ℚ) / ((101131 : ℕ) : ℚ) :=
  ⟨by decide, by decide, by decide,
    C5_quote_monotone_bounded.2.1 101131 99493 100 (by decide) (by decide) (by decide)⟩

/-- C8: for a positive trade against positive reserves the price impact is
nonpositive — the execution price is never better than spot. -/
theorem C8_price_impact_nonpositive (r s a : ℚ) (hr : 0 < r) (hs : 0 < s) (ha : 0 < a) :
    getPriceImpactPercent r s a ≤ 0 := by
  unfold getPriceImpactPercent
  rw [if_neg (by push_neg; exact ⟨ha, hr, hs⟩)]
  have hout := getSwapOutput_lt_linear hr hs ha
  have hnum : getSwapOutput r s a / a - s / r ≤ 0 := by
    have h1 : getSwapOutput r s a / a < s / r := by
      rw [div_lt_iff₀ ha]
      have : a * s / r = s / r * a := by ring
      linarith
    linarith
  have hspot : (0 : ℚ) ≤ s / r := by positivity
  have h2 : (getSwapOutput r s a / a - s / r) / (s / r) ≤ 0 :=
    div_nonpos_of_nonpos_of_nonneg hnum hspot
  nlinarith

/-- C8 witness: nonpositive price impact at the demo reserves for a 100-unit
trade. -/
theorem C8_price_impact_nonpositive_witness :
    (0 : ℚ) < 101131 ∧ (0 : ℚ) < 99493 ∧ (0 : ℚ) < 100 ∧
    getPriceImpactPercent 101131 99493 100 ≤ 0 :=
  ⟨by norm_num, by norm_num, by norm_num,
    C8_price_impact_nonpositive 101131 99493 100 (by norm_num) (by norm_num) (by norm_num)⟩

/-- C10: the integer execution-path quote never exceeds the exact display-path
quote on the same positive inputs — the execution bound under-promises. -/
theorem C10_exec_le_display (rIn rOut aIn : ℕ) (hr : 0 < rIn) (hs : 0 < rOut) (ha : 0 < aIn) :
    (execQuote rIn rOut aIn : ℚ) ≤
      getSwapOutput (rIn : ℚ) (rOut : ℚ) (aIn : ℚ) := by
  have hrq : (0 : ℚ) < (rIn : ℚ) := by exact_mod_cast hr
  have hsq : (0 : ℚ) < (rOut : ℚ) := by exact_mod_cast hs
  have haq : (0 : ℚ) < (aIn : ℚ) := by exact_mod_cast ha
  rw [getSwapOutput_pos_eq hrq hsq haq]
  have h1 := execQuote_cast_le rIn rOut aIn
  have h2 : (amountInWithFee aIn : ℚ) * (rOut : ℚ) / ((rIn : ℚ) + (amountInWithFee aIn : ℚ)) ≤
      (aIn : ℚ) * 997 / 1000 * (rOut : ℚ) / ((rIn : ℚ) + (aIn : ℚ) * 997 / 1000) :=
    curve_mono hrq hsq.le (by positivity) (amountInWithFee_cast_le aIn)
  linarith

/-- C10 witness: at the demo reserves the 97-unit integer quote is below the
display estimate. -/
theorem C10_exec_le_display_witness :
    0 < 101131 ∧ 0 < 99493 ∧ 0 < 100 ∧
    (execQuote 101131 99493 100 : ℚ) ≤
      getSwapOutput ((101131 : ℕ) : ℚ) ((99493 : ℕ) : ℚ) ((100 : ℕ) : ℚ) :=
  ⟨by decide, by decide, by decide,
    C10_exec_le_display 101131 99493 100 (by decide) (by decide) (by decide)⟩

/-! ### Slippage and orchestration lemmas -/

/-- Basis points are non-negative for a positive tolerance. -/
lemma slippageBps_nonneg {pct : ℚ} (h : 0 < pct) : 0 ≤ slippageBps pct := by
  unfold slippageBps jsRound
  apply Int.le_floor.mpr
  push_cast
  linarith

/-- Basis points are at most 10000 for a tolerance of at most 100%. -/
lemma slippageBps_le {pct : ℚ} (h : pct ≤ 100) : slippageBps pct ≤ 10000 := by
  unfold slippageBps jsRound
  calc ⌊pct * 100 + 1 / 2⌋ ≤ ⌊(100 : ℚ) * 100 + 1 / 2⌋ := Int.floor_mono (by linarith)
    _ = 10000 := by norm_num [Int.floor_eq_iff]

/-- A tolerance of exactly 100% rounds to 10000 basis points. -/
lemma slippageBps_hundred : slippageBps 100 = 10000 := by
  norm_num [slippageBps, jsRound, Int.floor_eq_iff]

/-- With zero slippage tolerance the derived bound equals the quote itself. -/
lemma minOutOf_zero_slippage (q : ℕ) : minOutOf q 0 = (q : ℤ) := by
  unfold minOutOf
  rw [show slippageBps 0 = 0 by norm_num [slippageBps, jsRound, Int.floor_eq_iff]]
  rw [Int.tdiv_eq_ediv (by positivity) (by norm_num)]
  norm_num

/-- On a positive integral amount, a live pool and a non-zero quote,
`executeSwapCore` reaches the submission step and emits the plan. -/
lemma executeSwapCore_pos_eval (direction : SwapDirection) (n : ℕ) (pct : ℚ)
    (r0 r1 allowance : ℕ) (hn : 0 < n)
    (hr : reserveInOf direction r0 r1 ≠ 0) (hs : reserveOutOf direction r0 r1 ≠ 0)
    (hq : execQuote (reserveInOf direction r0 r1) (reserveOutOf direction r0 r1) n ≠ 0) :
    executeSwapCore direction (n : ℚ) pct r0 r1 allowance =
      Except.ok ⟨decide (allowance < n), n,
        minOutOf (execQuote (reserveInOf direction r0 r1) (reserveOutOf direction r0 r1) n) pct,
        direction⟩ := by
  unfold executeSwapCore
  rw [if_neg (by push_neg; exact_mod_cast hn)]
  simp only [Int.floor_natCast, Int.toNat_natCast]
  rw [if_neg (by push_neg; exact ⟨hr, hs⟩), if_neg hq]

/-- AM–GM for the IL bound: `√p ≤ (p+1)/2` for positive `p`. -/
lemma sqrt_le_am {p : ℝ} (hp : 0 < p) : Real.sqrt p ≤ (p + 1) / 2 := by
  nlinarith [sq_nonneg (Real.sqrt p - 1), Real.sq_sqrt hp.le, Real.sqrt_nonneg p]

/-! ### Remaining claims -/

/-- C3 counterexample: `maxSlippagePct = 0` lies outside (0, 100], yet the
execution path does not reject it — it proceeds and emits a swap plan
(with `minOut` equal to the full quote) instead of failing. -/
theorem C3_counterexample :
    executeSwapCore SwapDirection.zeroToOne ((100 : ℕ) : ℚ) 0 101131 99493 1000000 =
      Except.ok ⟨false, 100, 97, SwapDirection.zeroToOne⟩ := by
  rw [executeSwapCore_pos_eval SwapDirection.zeroToOne 100 0 101131 99493 1000000
    (by decide) (by decide) (by decide) (by decide)]
  rw [minOutOf_zero_slippage]
  congr 1

/-- C3 amended: `executeSwap` performs no range validation of the slippage
tolerance; at `maxSlippagePct = 0` (outside (0, 100]) it proceeds to
submission with `minOut` equal to the full quoted output instead of signalling
an invalid-slippage failure. -/
theorem C3_amended_no_slippage_validation (direction : SwapDirection) (n : ℕ)
    (r0 r1 allowance : ℕ) (hn : 0 < n)
    (hr : reserveInOf direction r0 r1 ≠ 0) (hs : reserveOutOf direction r0 r1 ≠ 0)
    (hq : execQuote (reserveInOf direction r0 r1) (reserveOutOf direction r0 r1) n ≠ 0) :
    executeSwapCore direction (n : ℚ) 0 r0 r1 allowance =
      Except.ok ⟨decide (allowance < n), n,
        ((execQuote (reserveInOf direction r0 r1) (reserveOutOf direction r0 r1) n : ℕ) : ℤ),
        direction⟩ := by
  rw [executeSwapCore_pos_eval direction n 0 r0 r1 allowance hn hr hs hq,
    minOutOf_zero_slippage]

/-- C3 witness: a zero-tolerance swap of 100 units against the demo pool with
a small pre-existing allowance proceeds (requiring an approval first). -/
theorem C3_amended_no_slippage_validation_witness :
    0 < 100 ∧ reserveInOf SwapDirection.oneToZero 101131 99493 ≠ 0 ∧
    reserveOutOf SwapDirection.oneToZero 101131 99493 ≠ 0 ∧
    execQuote (reserveInOf SwapDirection.oneToZero 101131 99493)
      (reserveOutOf SwapDirection.oneToZero 101131 99493) 100 ≠ 0 ∧
    executeSwapCore SwapDirection.oneToZero ((100 : ℕ) : ℚ) 0 101131 99493 50 =
      Except.ok ⟨decide (50 < 100), 100,
        ((execQuote (reserveInOf SwapDirection.oneToZero 101131 99493)
            (reserveOutOf SwapDirection.oneToZero 101131 99493) 100 : ℕ) : ℤ),
        SwapDirection.oneToZero⟩ :=
  ⟨by decide, by decide, by decide, by decide,
    C3_amended_no_slippage_validation SwapDirection.oneToZero 100 101131 99493 50
      (by decide) (by decide) (by decide) (by decide)⟩

/-- C4 counterexample: with `amountOut = 1` and a 60% tolerance — inside
(0, 100] — the derived bound is 0 although `slippageBps = 6000 ≠ 10000`,
refuting the claim that `minOut = 0` only at 10000 basis points. -/
theorem C4_counterexample :
    (0 : ℚ) < 60 ∧ (60 : ℚ) ≤ 100 ∧ slippageBps 60 = 6000 ∧ minOutOf 1 60 = 0 := by
  refine ⟨by norm_num, by norm_num, ?_, ?_⟩
  · norm_num [slippageBps, jsRound, Int.floor_eq_iff]
  · unfold minOutOf
    rw [show slippageBps 60 = 6000 by norm_num [slippageBps, jsRound, Int.floor_eq_iff]]
    decide

/-- C4 amended: for every `amountOut` and tolerance in (0, 100] the derived
bound satisfies `minOut ≤ amountOut`, and a 100% tolerance gives `minOut = 0`;
concretely `minOutOf 97 1 = 96`.  (The bound can also vanish below 10000
basis points, e.g. for `amountOut = 1` at 60%, so "minOut = 0 only at 10000
bps" is dropped.) -/
theorem C4_amended_minOut_bound (amountOut : ℕ) (pct : ℚ) (h1 : 0 < pct) (h2 : pct ≤ 100) :
    minOutOf amountOut pct ≤ (amountOut : ℤ) ∧
    (pct = 100 → minOutOf amountOut pct = 0) ∧
    minOutOf 97 1 = 96 := by
  have hb0 := slippageBps_nonneg h1
  have hb1 := slippageBps_le h2
  refine ⟨?_, ?_, ?_⟩
  · unfold minOutOf
    rw [Int.tdiv_eq_ediv (mul_nonneg (Int.natCast_nonneg _) (by linarith)) (by norm_num)]
    calc (amountOut : ℤ) * (10000 - slippageBps pct) / 10000
        ≤ (amountOut : ℤ) * 10000 / 10000 := by
          apply Int.ediv_le_ediv (by norm_num)
          exact mul_le_mul_of_nonneg_left (by linarith) (Int.natCast_nonneg _)
      _ = (amountOut : ℤ) := Int.mul_ediv_cancel _ (by norm_num)
  · intro hpct
    subst hpct
    unfold minOutOf
    rw [slippageBps_hundred]
    norm_num
  · unfold minOutOf
    rw [show slippageBps 1 = 100 by norm_num [slippageBps, jsRound, Int.floor_eq_iff]]
    decide

/-- C4 witness: the amended bound evaluated at `amountOut = 97`, 1% tolerance. -/
theorem C4_amended_minOut_bound_witness :
    (0 : ℚ) < 1 ∧ (1 : ℚ) ≤ 100 ∧
    (minOutOf 97 1 ≤ (97 : ℤ) ∧ ((1 : ℚ) = 100 → minOutOf 97 1 = 0) ∧ minOutOf 97 1 = 96) :=
  ⟨by norm_num, by norm_num, C4_amended_minOut_bound 97 1 (by norm_num) (by norm_num)⟩

/-- C6: degenerate handling is split by context — the display quote returns 0
on any non-positive input or reserve, while the execution path, on a positive
amount but a zero input- or output-reserve, fails with the no-liquidity error
before emitting any swap instruction. -/
theorem C6_degenerate_split :
    (∀ r s a : ℚ, a ≤ 0 ∨ r ≤ 0 ∨ s ≤ 0 → getSwapOutput r s a = 0) ∧
    (∀ (direction : SwapDirection) (a pct : ℚ) (r0 r1 allowance : ℕ), 0 < a →
        reserveInOf direction r0 r1 = 0 ∨ reserveOutOf direction r0 r1 = 0 →
        executeSwapCore direction a pct r0 r1 allowance =
          Except.error SwapError.noLiquidity) := by
  constructor
  · intro r s a h
    unfold getSwapOutput
    rw [if_pos h]
  · intro direction a pct r0 r1 allowance ha h
    simp only [executeSwapCore, if_neg (not_le.mpr ha), if_pos h]

/-- C6 witness: a 100-unit trade against an empty input reserve fails with the
no-liquidity error. -/
theorem C6_degenerate_split_witness :
    (0 : ℚ) < 100 ∧
    (reserveInOf SwapDirection.zeroToOne 0 99493 = 0 ∨
      reserveOutOf SwapDirection.zeroToOne 0 99493 = 0) ∧
    executeSwapCore SwapDirection.zeroToOne 100 1 0 99493 0 =
      Except.error SwapError.noLiquidity :=
  ⟨by norm_num, Or.inl rfl,
    C6_degenerate_split.2 SwapDirection.zeroToOne 100 1 0 99493 0 (by norm_num) (Or.inl rfl)⟩

/-- C7: the impermanent-loss estimator is total — it returns 0 at no price
change, equals the closed form `(√p/((p+1)/2) − 1)·100` and is nonpositive
whenever `p = 1 + pct/100 > 0`, and returns 0 (not an error) for any
`pct ≤ −100`. -/
theorem C7_il_total_nonpositive :
    getImpermanentLossPercent 0 = 0 ∧
    (∀ pct : ℝ, 0 < 1 + pct / 100 →
        getImpermanentLossPercent pct =
          (Real.sqrt (1 + pct / 100) / ((1 + pct / 100 + 1) / 2) - 1) * 100 ∧
        getImpermanentLossPercent pct ≤ 0) ∧
    (∀ pct : ℝ, pct ≤ -100 → getImpermanentLossPercent pct = 0) := by
  refine ⟨?_, ?_, ?_⟩
  · unfold getImpermanentLossPercent
    norm_num [Real.sqrt_one]
  · intro pct hp
    refine ⟨?_, ?_⟩
    · unfold getImpermanentLossPercent
      rw [if_neg (not_le.mpr hp)]
    · unfold getImpermanentLossPercent
      rw [if_neg (not_le.mpr hp)]
      have hpos : (0 : ℝ) < (1 + pct / 100 + 1) / 2 := by linarith
      have hle := sqrt_le_am hp
      have hq : Real.sqrt (1 + pct / 100) / ((1 + pct / 100 + 1) / 2) ≤ 1 :=
        (div_le_one hpos).mpr (by linarith)
      nlinarith
  · intro pct hp
    unfold getImpermanentLossPercent
    rw [if_pos (by linarith)]

/-- C7 witness: a +50% price move has positive `p` and a nonpositive estimated
loss. -/
theorem C7_il_total_nonpositive_witness :
    (0 : ℝ) < 1 + 50 / 100 ∧ getImpermanentLossPercent 50 ≤ 0 :=
  ⟨by norm_num, (C7_il_total_nonpositive.2.1 50 (by norm_num)).2⟩
